import Mathlib

/-!
# Verification of the container-log-viewer streaming core

Shallow embedding of the real-time log streaming pipeline of the
container-log-viewer repository, together with proofs of the stated
properties.  The embedding follows the TypeScript source:

* `client/src/hooks/useWebSocket.ts` — the batching buffer
  (`pendingMessagesRef`, `batchTimerRef`, `batchMessages`, `clearBuffer`);
* `hooks/useLogStream.ts` / `App.tsx` — the log stream state machine
  (batch processing, origin filtering, retention bound, maxLogs
  validation, clear);
* `server/src/websocket/index.ts` — the session registry
  (`activeStreams`, `stopStream`, the `start` handler) and the server
  side filter/dispatch (`sendFilteredLogs`).

JavaScript `Date` timestamps are modelled as `Nat`, `undefined`-able
fields as `Option`, and the single-threaded event-loop scheduling model
(each message handler runs to completion before the next is processed)
as sequential function application.
-/

/-! ## Wire messages

`WsMessage` mirrors the client's `WsMessage` interface and the JSON
shapes the server sends: `{ type, data?, message?, containerId? }`. -/

structure WsMessage where
  type : String
  data : Option String
  message : Option String
  containerId : Option String
deriving DecidableEq, Repr

/-! ## Batching buffer (client, `useWebSocket.ts`)

State of the hook: the pending accumulation buffer
(`pendingMessagesRef.current`), whether a flush timer is currently
scheduled (`batchTimerRef.current !== null`; browser timer ids are
positive, so the JS truthiness test in `clearBuffer` is equivalent to a
null test), and the last published batch (`batchMessages`). -/

structure BufState where
  pending : List WsMessage
  timerScheduled : Bool
  batchMessages : List WsMessage
deriving DecidableEq, Repr

/-- `ws.onmessage` for a `type === 'log'` message: push onto the pending
buffer; if no flush timer is scheduled, schedule one
(`useWebSocket.ts`, the `message.type === 'log'` branch).  The resulting
state has a timer scheduled whether or not one already was. -/
def onLogMessage (s : BufState) (m : WsMessage) : BufState :=
  { s with pending := s.pending ++ [m], timerScheduled := true }

/-- The instrumented form of `onLogMessage` that also counts how many
times a new flush timer is scheduled, i.e. how often the
`batchTimerRef.current === null` branch is taken.  Its first component
coincides with `onLogMessage` (see `onLogCount_fst`). -/
def onLogCount (sk : BufState × Nat) (m : WsMessage) : BufState × Nat :=
  if sk.1.timerScheduled then
    ({ sk.1 with pending := sk.1.pending ++ [m] }, sk.2)
  else
    ({ sk.1 with pending := sk.1.pending ++ [m], timerScheduled := true }, sk.2 + 1)

/-- Expiry of the 500 ms flush timer: publish the pending messages as a
batch when non-empty, clear the pending buffer, and clear the timer
handle regardless (the `setTimeout` callback in `useWebSocket.ts`). -/
def flushTimerFire (s : BufState) : BufState :=
  if s.pending.isEmpty then
    { s with timerScheduled := false }
  else
    { pending := [], timerScheduled := false, batchMessages := s.pending }

/-- `clearBuffer` from `useWebSocket.ts`: empty the pending buffer,
cancel any scheduled timer, and publish an empty batch
(`setBatchMessages([])`). -/
def clearBuffer (_s : BufState) : BufState :=
  { pending := [], timerScheduled := false, batchMessages := [] }

/-! ## Server-side filter & dispatch (`server/src/websocket/index.ts`)

`sendFilteredLogs(ws, logs, filter?)` splits the chunk into lines,
keeps lines whose lowercase form contains the lowercased keyword, and
sends a `log` message — the connection is assumed open (`readyState`
check).  `Char.toLower` models `toLowerCase` (ASCII range; identical on
the log/keyword alphabets in play). -/

/-- Whether `p` occurs at the head of `l` (character-wise). -/
def leadsWith : List Char → List Char → Bool
  | [], _ => true
  | _ :: _, [] => false
  | a :: as, b :: bs => a == b && leadsWith as bs

/-- Whether `pat` occurs contiguously anywhere in `hay` — the model of
JavaScript `String.includes`. -/
def hasSub (pat : List Char) : List Char → Bool
  | [] => pat.isEmpty
  | c :: rest => leadsWith pat (c :: rest) || hasSub pat rest

/-- `s.includes(pat)` on strings. -/
def strContains (s pat : String) : Bool :=
  hasSub pat.data s.data

/-- `s.split('\n')` on the character list: JavaScript split semantics —
`"".split('\n')` is `[""]`, and a trailing separator produces a
trailing empty piece. -/
def splitLines : List Char → List (List Char)
  | [] => [[]]
  | c :: rest =>
      if c = '\n' then [] :: splitLines rest
      else
        match splitLines rest with
        | [] => [[c]]
        | l :: ls => (c :: l) :: ls

/-- `s.split('\n')` on strings. -/
def jsSplit (s : String) : List String :=
  (splitLines s.data).map (fun cs => ⟨cs⟩)

/-- `s.toLowerCase()` (character-wise `Char.toLower`; the ASCII range,
which covers the log and keyword alphabets involved). -/
def jsToLower (s : String) : String :=
  ⟨s.data.map Char.toLower⟩

/-- `s.trim()`: strip leading and trailing whitespace. -/
def trimChars (l : List Char) : List Char :=
  ((l.dropWhile Char.isWhitespace).reverse.dropWhile Char.isWhitespace).reverse

/-- `s.trim()` on strings. -/
def jsTrim (s : String) : String :=
  ⟨trimChars s.data⟩

/-- The line filtering done inside `sendFilteredLogs` when a keyword is
active: `logs.split('\n').filter(line =>
line.toLowerCase().includes(filterLower)).join('\n')`. -/
def filteredLines (chunk f : String) : String :=
  String.intercalate "\n"
    ((jsSplit chunk).filter (fun line => strContains (jsToLower line) (jsToLower f)))

/-- `sendFilteredLogs` from `server/src/websocket/index.ts`: `none`
means no message is sent.  The JS guard `if (filter)` is false both for
an absent and for an empty keyword, in which case the chunk is sent
unfiltered; only inside the guard is the whitespace-only result
suppressed (`if (!lines.trim()) return`).  The emitted message is
`{ type: 'log', data: lines }` — it carries no `containerId` field. -/
def sendFilteredLogs (logs : String) : Option String → Option WsMessage
  | some f =>
      if f = "" then some ⟨"log", some logs, none, none⟩
      else if jsTrim (filteredLines logs f) = "" then none
      else some ⟨"log", some (filteredLines logs f), none, none⟩
  | none => some ⟨"log", some logs, none, none⟩

/-! ## Session registry (`server/src/websocket/index.ts`)

`activeStreams : Map<WebSocket, ChildProcess>` keyed here by a numeric
connection id; a spawned child process is identified by a fresh pid and
remembers the container it tails.  `kill()` is modelled by recording
the pid in `killed` — the process need not have actually terminated,
matching the fire-and-forget `process.kill()` of the source. -/

structure Proc where
  pid : Nat
  containerId : String
deriving DecidableEq, Repr

structure SrvState where
  activeStreams : List (Nat × Proc)
  killed : List Nat
  nextPid : Nat
deriving DecidableEq, Repr

def srvInit : SrvState := ⟨[], [], 0⟩

/-- The registry entry for a connection (`activeStreams.get(ws)`). -/
def lookupStream (conn : Nat) (s : SrvState) : Option Proc :=
  List.lookup conn s.activeStreams

/-- `stopStream(ws)`: if an entry exists, kill the process and
deregister it; a no-op otherwise. -/
def stopStream (conn : Nat) (s : SrvState) : SrvState :=
  match lookupStream conn s with
  | some p =>
      { s with killed := p.pid :: s.killed,
               activeStreams := s.activeStreams.filter (fun e => e.1 != conn) }
  | none => s

/-- `activeStreams.set(ws, process)`: map insertion — replaces any
entry under the same key. -/
def registerStream (conn : Nat) (p : Proc) (s : SrvState) : SrvState :=
  { s with activeStreams :=
      (s.activeStreams.filter (fun e => e.1 != conn)) ++ [(conn, p)] }

/-- The `message.type === 'start'` handler: first `stopStream(ws)`,
then spawn a tail process for the requested container
(`streamContainerLogs`) and register it.  The handler also installs a
`process.on('close')` callback on the spawned process; its later firing
is the separate transition `handleProcClose`. -/
def handleStart (conn : Nat) (cid : String) (s : SrvState) : SrvState :=
  let s1 := stopStream conn s
  let p : Proc := ⟨s1.nextPid, cid⟩
  registerStream conn p { s1 with nextPid := s1.nextPid + 1 }

/-- The `process.on('close')` callback installed by the `start` handler:
send an `end` message and run `activeStreams.delete(ws)`.  The delete is
unconditional — the callback does not check that the process it was
installed on is still the registered one, so when it fires for an
already-replaced (killed) process it removes whatever entry the
connection currently has. -/
def handleProcClose (conn : Nat) (s : SrvState) : SrvState :=
  { s with activeStreams := s.activeStreams.filter (fun e => e.1 != conn) }

/-- Number of registry entries held for a connection. -/
def regCount (conn : Nat) (s : SrvState) : Nat :=
  (s.activeStreams.filter (fun e => e.1 == conn)).length

/-! ## Log stream state machine (client, `useLogStream.ts` / `App.tsx`)

`LogEntry` is the UI-facing record `{ timestamp: Date, text: string }`
(timestamps as `Nat`).  `TLogEntry` is the same entry instrumented with
a ghost `origin` field recording the `containerId` of the message the
entry was created from; the erasure lemma `processBatchT_entries` shows
the instrumented batch processor projects exactly onto the one from the
source. -/

structure LogEntry where
  timestamp : Nat
  text : String
deriving DecidableEq, Repr

structure TLogEntry where
  entry : LogEntry
  origin : Option String
deriving DecidableEq, Repr

/-- The predicate of the batch filter in `useLogStream.ts` / `App.tsx`:
`(msg) => msg.data && msg.containerId === selectedContainer`.  The JS
truthiness of `msg.data` is: present and non-empty; strict equality
against a string is false when `containerId` is `undefined`. -/
def msgKeep (sel : String) (m : WsMessage) : Bool :=
  (match m.data with
   | some d => d != ""
   | none => false) && m.containerId == some sel

/-- The `setLogs` updater of `useLogStream.ts` (lines 83–90): append the
new entries, then `newLogs.slice(-maxLogs)` whenever
`maxLogs > 0 && newLogs.length > maxLogs`.  Polymorphic because the
update is shape-generic; it is used both on plain and on instrumented
entries. -/
def appendBounded {α : Type} (bound : Nat) (prev newEntries : List α) : List α :=
  if 0 < bound ∧ bound < (prev ++ newEntries).length then
    (prev ++ newEntries).drop ((prev ++ newEntries).length - bound)
  else
    prev ++ newEntries

/-- The batch-processing effect of `useLogStream.ts` (lines 58–91):
ignore an empty batch, a disabled stream, or a missing container
selection; otherwise keep only messages with data that carry the
selected container's id, stamp them with one shared capture timestamp,
and append under the retention bound. -/
def processBatch (sel : String) (streaming : Bool) (bound now : Nat)
    (logs : List LogEntry) (batch : List WsMessage) : List LogEntry :=
  if batch.length = 0 then logs
  else if streaming = false then logs
  else if sel = "" then logs
  else if ((batch.filter (msgKeep sel)).map
      (fun m => (⟨now, m.data.getD ""⟩ : LogEntry))).length = 0 then logs
  else
    appendBounded bound logs
      ((batch.filter (msgKeep sel)).map (fun m => (⟨now, m.data.getD ""⟩ : LogEntry)))

/-- `processBatch` instrumented with the ghost origin tag: each created
entry also records the `containerId` of the message it came from.
Erasing the tag recovers `processBatch` (`processBatchT_entries`). -/
def processBatchT (sel : String) (streaming : Bool) (bound now : Nat)
    (logs : List TLogEntry) (batch : List WsMessage) : List TLogEntry :=
  if batch.length = 0 then logs
  else if streaming = false then logs
  else if sel = "" then logs
  else if ((batch.filter (msgKeep sel)).map
      (fun m => (⟨⟨now, m.data.getD ""⟩, m.containerId⟩ : TLogEntry))).length = 0 then logs
  else
    appendBounded bound logs
      ((batch.filter (msgKeep sel)).map
        (fun m => (⟨⟨now, m.data.getD ""⟩, m.containerId⟩ : TLogEntry)))

/-- `parseInt(value, 10)` on a string of decimal digits. -/
def digitsToNat (l : List Char) : Nat :=
  l.foldl (fun acc c => acc * 10 + (c.toNat - '0'.toNat)) 0

/-- State owned by the log stream state machine: the retained log list
(instrumented entries), the selected container, the streaming flag, the
committed retention bound, and the raw text and error of the maxLogs
input. -/
structure LSState where
  logs : List TLogEntry
  selected : String
  streaming : Bool
  maxLogs : Nat
  maxLogsInput : String
  maxLogsError : String
deriving DecidableEq, Repr

/-- `handleMaxLogsChange(value)` from `useLogStream.ts` (lines 98–125):
the raw text is always committed to the input display; empty input
errors "Required"; input that fails `/^\d+$/` (equivalently, for
non-empty input, `isNaN(parseInt(value)) || !/^\d+$/.test(value)`)
errors "Invalid number"; a digit string over 1000 errors
"Must be 0~1000" (the `num < 0` half of the source's range check is
unreachable for digit strings); otherwise the error is cleared and the
value committed as the new bound. -/
def applyMaxLogsChange (value : String) (s : LSState) : LSState :=
  if value = "" then
    { s with maxLogsInput := value, maxLogsError := "Required" }
  else if value.toList.all Char.isDigit = false then
    { s with maxLogsInput := value, maxLogsError := "Invalid number" }
  else if 1000 < digitsToNat value.toList then
    { s with maxLogsInput := value, maxLogsError := "Must be 0~1000" }
  else
    { s with maxLogsInput := value, maxLogsError := "",
             maxLogs := digitsToNat value.toList }

/-- The operations that touch the log stream state, from
`useLogStream.ts` and `App.tsx`: a published batch snapshot arriving, a
container switch (`handleContainerChange` clears the retained list), a
filter change (`handleFilterChange` clears the retained list), an
explicit clear, the streaming toggle, and maxLogs input. -/
inductive LSEvent where
  | batchArrive (now : Nat) (msgs : List WsMessage)
  | switchContainer (cid : String)
  | filterChange
  | clearLogs
  | setStreaming (b : Bool)
  | maxLogsChange (value : String)

def lsStep (s : LSState) : LSEvent → LSState
  | .batchArrive now msgs =>
      { s with logs := processBatchT s.selected s.streaming s.maxLogs now s.logs msgs }
  | .switchContainer cid => { s with selected := cid, logs := [] }
  | .filterChange => { s with logs := [] }
  | .clearLogs => { s with logs := [] }
  | .setStreaming b => { s with streaming := b }
  | .maxLogsChange v => applyMaxLogsChange v s

def lsRun (s : LSState) (evs : List LSEvent) : LSState :=
  evs.foldl lsStep s

/-- Initial hook state: no logs, nothing selected, streaming on, bound
500 with input "500" and no error. -/
def lsInit : LSState := ⟨[], "", true, 500, "500", ""⟩

/-- Origin isolation: every retained entry was created from a message
tagged with the currently selected container. -/
def originOk (s : LSState) : Prop :=
  ∀ te ∈ s.logs, te.origin = some s.selected

/-! ## App-level container switch (`App.tsx`, `handleContainerChange`) -/

/-- The stream-start request `{ type: 'start', containerId, filter,
tail: 100 }` sent over the transport. -/
structure StartReq where
  containerId : String
  filter : String
  tail : Nat
deriving DecidableEq, Repr

/-- The `App` state relevant to a container switch. -/
structure AppState where
  selectedContainer : String
  filter : String
  logs : List LogEntry
  buffer : BufState
  isConnected : Bool
deriving DecidableEq, Repr

/-- `handleContainerChange(containerId)` from `App.tsx`: select the new
container, clear the transport buffer and the retained list, and — when
a container is chosen and the socket is connected — send a `start`
request carrying the *current* filter text.  Returns the new state and
the requests sent. -/
def handleContainerChange (cid : String) (s : AppState) : AppState × List StartReq :=
  if cid ≠ "" ∧ s.isConnected = true then
    ({ s with selectedContainer := cid, buffer := clearBuffer s.buffer, logs := [] },
      [⟨cid, s.filter, 100⟩])
  else
    ({ s with selectedContainer := cid, buffer := clearBuffer s.buffer, logs := [] },
      [])

/-! # Theorems -/

/-! ## Batching buffer -/

theorem onLogCount_fst (sk : BufState × Nat) (m : WsMessage) :
    (onLogCount sk m).1 = onLogMessage sk.1 m := by
  unfold onLogCount onLogMessage
  by_cases h : sk.1.timerScheduled
  · simp [h]
  · simp [h]

theorem foldl_onLog_timer_true (msgs : List WsMessage) (p : List WsMessage)
    (b : List WsMessage) :
    List.foldl onLogMessage ⟨p, true, b⟩ msgs = ⟨p ++ msgs, true, b⟩ := by
  induction msgs generalizing p with
  | nil => simp
  | cons m rest ih =>
      simp only [List.foldl_cons, onLogMessage]
      rw [ih]
      simp

theorem foldl_onLogCount_timer_true (msgs : List WsMessage) (p : List WsMessage)
    (b : List WsMessage) (k : Nat) :
    List.foldl onLogCount (⟨p, true, b⟩, k) msgs = (⟨p ++ msgs, true, b⟩, k) := by
  induction msgs generalizing p with
  | nil => simp
  | cons m rest ih =>
      have hstep : onLogCount (⟨p, true, b⟩, k) m = (⟨p ++ [m], true, b⟩, k) := by
        simp [onLogCount]
      rw [List.foldl_cons, hstep, ih (p ++ [m])]
      simp

/-- C4: `clearBuffer()` always leaves the pending buffer empty, leaves no
flush timer scheduled, and publishes an empty batch snapshot; it is
idempotent, and the post-state does not depend on what was pending or
scheduled before the call. -/
theorem clearBuffer_spec (s t : BufState) :
    (clearBuffer s).pending = [] ∧
    (clearBuffer s).timerScheduled = false ∧
    (clearBuffer s).batchMessages = [] ∧
    clearBuffer (clearBuffer s) = clearBuffer s ∧
    clearBuffer s = clearBuffer t := by
  refine ⟨rfl, rfl, rfl, rfl, rfl⟩

/-- C5: starting from a fresh batch window (empty pending buffer, no
timer scheduled), a sequence of `log` messages schedules exactly one
flush timer (and never more than one, also for the empty sequence), and
when that timer fires the published batch snapshot is exactly the
arrived messages in arrival order, with the pending buffer left empty
and no timer scheduled. -/
theorem batch_window_spec (msgs : List WsMessage) (b : List WsMessage)
    (hne : msgs ≠ []) :
    (List.foldl onLogCount (⟨[], false, b⟩, 0) msgs).2 = 1 ∧
    (∀ ms : List WsMessage, (List.foldl onLogCount (⟨[], false, b⟩, 0) ms).2 ≤ 1) ∧
    flushTimerFire (List.foldl onLogMessage ⟨[], false, b⟩ msgs) =
      ⟨[], false, msgs⟩ := by
  have hcount : ∀ ms : List WsMessage, ms ≠ [] →
      List.foldl onLogCount (⟨[], false, b⟩, 0) ms =
        (⟨ms, true, b⟩, 1) := by
    intro ms hms
    match ms with
    | [] => exact absurd rfl hms
    | m :: rest =>
        simp only [List.foldl_cons, onLogCount]
        simpa using foldl_onLogCount_timer_true rest [m] b 1
  refine ⟨by rw [hcount msgs hne], ?_, ?_⟩
  · intro ms
    match ms with
    | [] => exact Nat.zero_le 1
    | m :: rest =>
        rw [hcount (m :: rest) (by simp)]
  · match msgs with
    | [] => exact absurd rfl hne
    | m :: rest =>
        simp only [List.foldl_cons, onLogMessage, List.nil_append]
        rw [foldl_onLog_timer_true rest [m] b]
        simp [flushTimerFire]

/-- Concrete instantiation of `batch_window_spec`: two messages in one
window yield one scheduled timer and a batch holding both in order. -/
theorem batch_window_spec_witness :
    (List.foldl onLogCount
        (⟨[], false, []⟩, 0)
        [⟨"log", some "a", none, some "c1"⟩, ⟨"log", some "b", none, some "c1"⟩]).2 = 1 ∧
    flushTimerFire (List.foldl onLogMessage ⟨[], false, []⟩
        [⟨"log", some "a", none, some "c1"⟩, ⟨"log", some "b", none, some "c1"⟩]) =
      ⟨[], false, [⟨"log", some "a", none, some "c1"⟩, ⟨"log", some "b", none, some "c1"⟩]⟩ := by
  have h := batch_window_spec
    [⟨"log", some "a", none, some "c1"⟩, ⟨"log", some "b", none, some "c1"⟩]
    [] (by simp)
  exact ⟨h.1, h.2.2⟩

/-! ## Session registry -/

/-- C3 (code bug): on one connection, `start c1` then `start c2` does
stop and deregister the old process before registering the new one, and
right after the second `start` exactly `c2`'s process is registered —
but the `process.on('close')` callback of the killed `c1` process runs
`activeStreams.delete(ws)` unconditionally when that process eventually
exits, which deregisters `c2`'s still-live (never killed) process: the
registry ends up empty, not holding `c2`'s process. -/
theorem close_after_replacement_deregisters_new (conn : Nat) (c1 c2 : String) :
    lookupStream conn (stopStream conn (handleStart conn c1 srvInit)) = none ∧
    0 ∈ (stopStream conn (handleStart conn c1 srvInit)).killed ∧
    (handleStart conn c2 (handleStart conn c1 srvInit)).activeStreams =
      [(conn, ⟨1, c2⟩)] ∧
    lookupStream conn (handleStart conn c2 (handleStart conn c1 srvInit)) =
      some ⟨1, c2⟩ ∧
    (handleProcClose conn
        (handleStart conn c2 (handleStart conn c1 srvInit))).activeStreams = [] ∧
    regCount conn (handleProcClose conn
        (handleStart conn c2 (handleStart conn c1 srvInit))) = 0 ∧
    lookupStream conn (handleProcClose conn
        (handleStart conn c2 (handleStart conn c1 srvInit))) = none ∧
    ¬ 1 ∈ (handleProcClose conn
        (handleStart conn c2 (handleStart conn c1 srvInit))).killed := by
  have h1 : handleStart conn c1 srvInit =
      ⟨[(conn, ⟨0, c1⟩)], [], 1⟩ := by
    simp [handleStart, stopStream, registerStream, lookupStream, srvInit]
  have h2 : stopStream conn (handleStart conn c1 srvInit) =
      ⟨[], [0], 1⟩ := by
    rw [h1]
    simp [stopStream, lookupStream, List.lookup]
  have h3 : handleStart conn c2 (handleStart conn c1 srvInit) =
      ⟨[(conn, ⟨1, c2⟩)], [0], 2⟩ := by
    rw [handleStart, h2]
    simp [registerStream]
  have h4 : handleProcClose conn (handleStart conn c2 (handleStart conn c1 srvInit)) =
      ⟨[], [0], 2⟩ := by
    rw [h3]
    simp [handleProcClose]
  refine ⟨?_, ?_, ?_, ?_, ?_, ?_, ?_, ?_⟩
  · rw [h2]; simp [lookupStream]
  · rw [h2]; simp
  · rw [h3]
  · rw [h3]; simp [lookupStream, List.lookup]
  · rw [h4]
  · rw [h4]; simp [regCount]
  · rw [h4]; simp [lookupStream]
  · rw [h4]; simp

/-! ## Log stream state machine -/

theorem mem_appendBounded {α : Type} (bd : Nat) (p n : List α) (a : α)
    (h : a ∈ appendBounded bd p n) : a ∈ p ++ n := by
  by_cases hc : 0 < bd ∧ bd < (p ++ n).length
  · rw [appendBounded, if_pos hc] at h
    exact List.drop_subset _ _ h
  · rwa [appendBounded, if_neg hc] at h

theorem appendBounded_map {α β : Type} (f : α → β) (bd : Nat) (p n : List α) :
    (appendBounded bd p n).map f = appendBounded bd (p.map f) (n.map f) := by
  unfold appendBounded
  rw [← List.map_append]
  by_cases hc : 0 < bd ∧ bd < (p ++ n).length
  · rw [if_pos hc, if_pos (by simpa using hc), List.map_drop]
    simp
  · rw [if_neg hc, if_neg (by simpa using hc)]

/-- Erasure: forgetting the ghost origin tags of the instrumented batch
processor yields exactly the source-level `processBatch`. -/
theorem processBatchT_entries (sel : String) (st : Bool) (bd now : Nat)
    (tlogs : List TLogEntry) (batch : List WsMessage) :
    (processBatchT sel st bd now tlogs batch).map TLogEntry.entry =
      processBatch sel st bd now (tlogs.map TLogEntry.entry) batch := by
  unfold processBatchT processBatch
  by_cases h0 : batch.length = 0
  · rw [if_pos h0, if_pos h0]
  rw [if_neg h0, if_neg h0]
  by_cases h1 : st = false
  · rw [if_pos h1, if_pos h1]
  rw [if_neg h1, if_neg h1]
  by_cases h2 : sel = ""
  · rw [if_pos h2, if_pos h2]
  rw [if_neg h2, if_neg h2]
  have hlen : ((batch.filter (msgKeep sel)).map
      (fun m => (⟨⟨now, m.data.getD ""⟩, m.containerId⟩ : TLogEntry))).length =
      ((batch.filter (msgKeep sel)).map
        (fun m => (⟨now, m.data.getD ""⟩ : LogEntry))).length := by
    simp
  by_cases h3 : ((batch.filter (msgKeep sel)).map
      (fun m => (⟨⟨now, m.data.getD ""⟩, m.containerId⟩ : TLogEntry))).length = 0
  · rw [if_pos h3, if_pos (hlen ▸ h3)]
  · rw [if_neg h3, if_neg (fun hczero => h3 (hlen.symm ▸ hczero))]
    rw [appendBounded_map]
    congr 1
    rw [List.map_map]
    rfl

theorem processBatchT_mem (sel : String) (st : Bool) (bd now : Nat)
    (logs : List TLogEntry) (batch : List WsMessage) (te : TLogEntry)
    (h : te ∈ processBatchT sel st bd now logs batch) :
    te ∈ logs ∨ te.origin = some sel := by
  unfold processBatchT at h
  by_cases h0 : batch.length = 0
  · rw [if_pos h0] at h; exact Or.inl h
  rw [if_neg h0] at h
  by_cases h1 : st = false
  · rw [if_pos h1] at h; exact Or.inl h
  rw [if_neg h1] at h
  by_cases h2 : sel = ""
  · rw [if_pos h2] at h; exact Or.inl h
  rw [if_neg h2] at h
  by_cases h3 : ((batch.filter (msgKeep sel)).map
      (fun m => (⟨⟨now, m.data.getD ""⟩, m.containerId⟩ : TLogEntry))).length = 0
  · rw [if_pos h3] at h; exact Or.inl h
  rw [if_neg h3] at h
  have h4 := mem_appendBounded _ _ _ _ h
  rcases List.mem_append.mp h4 with hl | hr
  · exact Or.inl hl
  · right
    rcases List.mem_map.mp hr with ⟨m, hm, hmap⟩
    have hk : msgKeep sel m = true := (List.mem_filter.mp hm).2
    have hcid : m.containerId = some sel := by
      have := (Bool.and_eq_true _ _).mp hk
      exact eq_of_beq this.2
    rw [← hmap]
    exact hcid

theorem lsStep_originOk (s : LSState) (e : LSEvent) (h : originOk s) :
    originOk (lsStep s e) := by
  cases e with
  | batchArrive now msgs =>
      intro te hte
      rcases processBatchT_mem s.selected s.streaming s.maxLogs now s.logs msgs te hte
        with hl | hr
      · exact h te hl
      · exact hr
  | switchContainer cid => intro te hte; cases hte
  | filterChange => intro te hte; cases hte
  | clearLogs => intro te hte; cases hte
  | setStreaming b => intro te hte; exact h te hte
  | maxLogsChange v =>
      intro te hte
      have hlogs : (applyMaxLogsChange v s).logs = s.logs ∧
          (applyMaxLogsChange v s).selected = s.selected := by
        unfold applyMaxLogsChange
        by_cases hv : v = ""
        · rw [if_pos hv]; exact ⟨rfl, rfl⟩
        rw [if_neg hv]
        by_cases hd : v.toList.all Char.isDigit = false
        · rw [if_pos hd]; exact ⟨rfl, rfl⟩
        rw [if_neg hd]
        by_cases hr : 1000 < digitsToNat v.toList
        · rw [if_pos hr]; exact ⟨rfl, rfl⟩
        · rw [if_neg hr]; exact ⟨rfl, rfl⟩
      have hte' : te ∈ s.logs := by rw [← hlogs.1]; exact hte
      show te.origin = some (applyMaxLogsChange v s).selected
      rw [hlogs.2]
      exact h te hte'

/-- C1: along every sequence of batch arrivals, container switches,
filter changes, clears, streaming toggles and maxLogs edits, every
entry ever present in the retained log list was created from a log
message whose origin tag equals the container selected when its batch
was processed; entries from any other container never appear. -/
theorem origin_isolation (evs : List LSEvent) : originOk (lsRun lsInit evs) := by
  have main : ∀ (l : List LSEvent) (s : LSState), originOk s → originOk (lsRun s l) := by
    intro l
    induction l with
    | nil => intro s h; exact h
    | cons e rest ih => intro s h; exact ih (lsStep s e) (lsStep_originOk s e h)
  exact main evs lsInit (fun te hte => absurd hte (List.not_mem_nil te))

/-- Concrete instantiation of `origin_isolation`: after switching to
`c2` and processing a batch holding one stale `c1` message and one
`c2` message, every retained entry is tagged `c2`. -/
theorem origin_isolation_witness :
    originOk (lsRun lsInit
      [LSEvent.switchContainer "c2",
       LSEvent.batchArrive 5
         [⟨"log", some "stale", none, some "c1"⟩,
          ⟨"log", some "fresh", none, some "c2"⟩]]) :=
  origin_isolation
    [LSEvent.switchContainer "c2",
     LSEvent.batchArrive 5
       [⟨"log", some "stale", none, some "c1"⟩,
        ⟨"log", some "fresh", none, some "c2"⟩]]

/-- C6: retention is FIFO with respect to the committed bound: when
`0 < B` and an append pushes the list past `B`, the result has length
exactly `B` and is exactly the last `B` appended entries in append
order; with bound `0` nothing is ever evicted. -/
theorem retention_fifo (B : Nat) (prev newE : List LogEntry) :
    (0 < B → B < (prev ++ newE).length →
        (appendBounded B prev newE).length = B ∧
        appendBounded B prev newE =
          (prev ++ newE).drop ((prev ++ newE).length - B)) ∧
    appendBounded 0 prev newE = prev ++ newE := by
  constructor
  · intro hB hlen
    have hc : 0 < B ∧ B < (prev ++ newE).length := ⟨hB, hlen⟩
    rw [appendBounded, if_pos hc]
    refine ⟨?_, rfl⟩
    rw [List.length_drop]
    omega
  · rw [appendBounded, if_neg (by simp)]

/-- Concrete instantiation of `retention_fifo`: bound 2 on three
appended entries keeps the last two in order; bound 0 evicts nothing. -/
theorem retention_fifo_witness :
    (appendBounded 2 [(⟨0, "a"⟩ : LogEntry), ⟨1, "b"⟩] [⟨2, "c"⟩]).length = 2 ∧
    appendBounded 2 [(⟨0, "a"⟩ : LogEntry), ⟨1, "b"⟩] [⟨2, "c"⟩] =
      [⟨1, "b"⟩, ⟨2, "c"⟩] ∧
    appendBounded 0 [(⟨0, "a"⟩ : LogEntry)] [⟨1, "b"⟩] = [⟨0, "a"⟩, ⟨1, "b"⟩] := by
  have h := (retention_fifo 2 [(⟨0, "a"⟩ : LogEntry), ⟨1, "b"⟩] [⟨2, "c"⟩]).1
    (by decide) (by decide)
  refine ⟨h.1, ?_, (retention_fifo 0 [(⟨0, "a"⟩ : LogEntry)] [⟨1, "b"⟩]).2⟩
  rw [h.2]
  decide

/-- C7: `handleMaxLogsChange` always commits the raw text to the input
display; empty input errors "Required", non-digit input errors
"Invalid number", digit input above 1000 errors "Must be 0~1000" — in
each error case the committed bound is untouched — and digit input up
to 1000 clears the error and commits the value as the new bound. -/
theorem maxlogs_validation (s : LSState) (value : String) :
    (applyMaxLogsChange value s).maxLogsInput = value ∧
    (value = "" →
        (applyMaxLogsChange value s).maxLogsError = "Required" ∧
        (applyMaxLogsChange value s).maxLogs = s.maxLogs) ∧
    (value ≠ "" → value.toList.all Char.isDigit = false →
        (applyMaxLogsChange value s).maxLogsError = "Invalid number" ∧
        (applyMaxLogsChange value s).maxLogs = s.maxLogs) ∧
    (value ≠ "" → value.toList.all Char.isDigit = true →
        1000 < digitsToNat value.toList →
        (applyMaxLogsChange value s).maxLogsError = "Must be 0~1000" ∧
        (applyMaxLogsChange value s).maxLogs = s.maxLogs) ∧
    (value ≠ "" → value.toList.all Char.isDigit = true →
        digitsToNat value.toList ≤ 1000 →
        (applyMaxLogsChange value s).maxLogsError = "" ∧
        (applyMaxLogsChange value s).maxLogs = digitsToNat value.toList) := by
  unfold applyMaxLogsChange
  by_cases hv : value = ""
  · rw [if_pos hv]
    exact ⟨rfl, fun _ => ⟨rfl, rfl⟩, fun hne _ => absurd hv hne,
      fun hne _ _ => absurd hv hne, fun hne _ _ => absurd hv hne⟩
  rw [if_neg hv]
  by_cases hd : value.toList.all Char.isDigit = false
  · rw [if_pos hd]
    exact ⟨rfl, fun he => absurd he hv, fun _ _ => ⟨rfl, rfl⟩,
      fun _ hdt _ => absurd (hd.symm.trans hdt) Bool.false_ne_true,
      fun _ hdt _ => absurd (hd.symm.trans hdt) Bool.false_ne_true⟩
  rw [if_neg hd]
  have hdt : value.toList.all Char.isDigit = true := by
    cases hAll : value.toList.all Char.isDigit
    · exact absurd hAll hd
    · rfl
  by_cases hr : 1000 < digitsToNat value.toList
  · rw [if_pos hr]
    exact ⟨rfl, fun he => absurd he hv,
      fun _ hf => absurd (hf.symm.trans hdt) Bool.false_ne_true,
      fun _ _ _ => ⟨rfl, rfl⟩,
      fun _ _ hle => absurd hr (not_lt.mpr hle)⟩
  · rw [if_neg hr]
    exact ⟨rfl, fun he => absurd he hv,
      fun _ hf => absurd (hf.symm.trans hdt) Bool.false_ne_true,
      fun _ _ hgt => absurd hgt hr,
      fun _ _ _ => ⟨rfl, rfl⟩⟩

/-- Concrete instantiation of `maxlogs_validation` on the inputs of
property P6: `""`, `"abc"`, `"-1"`, `"1001"`, `"1000"`, `"0"`. -/
theorem maxlogs_validation_witness :
    (applyMaxLogsChange "" lsInit).maxLogsError = "Required" ∧
    (applyMaxLogsChange "abc" lsInit).maxLogsError = "Invalid number" ∧
    (applyMaxLogsChange "-1" lsInit).maxLogsError = "Invalid number" ∧
    (applyMaxLogsChange "1001" lsInit).maxLogsError = "Must be 0~1000" ∧
    (applyMaxLogsChange "1001" lsInit).maxLogs = 500 ∧
    (applyMaxLogsChange "1000" lsInit).maxLogsError = "" ∧
    (applyMaxLogsChange "1000" lsInit).maxLogs = 1000 ∧
    (applyMaxLogsChange "0" lsInit).maxLogsError = "" ∧
    (applyMaxLogsChange "0" lsInit).maxLogs = 0 := by
  refine ⟨((maxlogs_validation lsInit "").2.1 rfl).1,
    ((maxlogs_validation lsInit "abc").2.2.1 (by decide) (by decide)).1,
    ((maxlogs_validation lsInit "-1").2.2.1 (by decide) (by decide)).1,
    ((maxlogs_validation lsInit "1001").2.2.2.1 (by decide) (by decide) (by decide)).1,
    ?_, ?_, ?_, ?_, ?_⟩
  · exact ((maxlogs_validation lsInit "1001").2.2.2.1 (by decide) (by decide) (by decide)).2
  · exact ((maxlogs_validation lsInit "1000").2.2.2.2 (by decide) (by decide) (by decide)).1
  · have h := ((maxlogs_validation lsInit "1000").2.2.2.2 (by decide) (by decide) (by decide)).2
    rw [h]
    decide
  · exact ((maxlogs_validation lsInit "0").2.2.2.2 (by decide) (by decide) (by decide)).1
  · have h := ((maxlogs_validation lsInit "0").2.2.2.2 (by decide) (by decide) (by decide)).2
    rw [h]
    decide

/-- C10: processing an empty published batch snapshot — in particular
the one `clearBuffer` publishes — leaves the whole log stream state
unchanged: the retained list, the selected container, the streaming
flag, the committed bound and the validation text; likewise the
source-level `processBatch` returns the retained list untouched. -/
theorem empty_batch_frame (s : LSState) (now : Nat) :
    lsStep s (LSEvent.batchArrive now []) = s ∧
    ∀ (sel : String) (st : Bool) (bd now2 : Nat) (logs : List LogEntry),
      processBatch sel st bd now2 logs [] = logs :=
  ⟨rfl, fun _ _ _ _ _ => rfl⟩

/-! ## App-level container switch -/

/-- C9 counterexample: with filter text "err" active on container `c1`,
switching to `c2` keeps the filter text and sends the `start` request
for `c2` still carrying `"err"` — the filter is not discarded. -/
theorem switch_sends_current_filter_counterexample :
    (handleContainerChange "c2" ⟨"c1", "err", [], ⟨[], false, []⟩, true⟩).2 =
      [⟨"c2", "err", 100⟩] ∧
    (handleContainerChange "c2" ⟨"c1", "err", [], ⟨[], false, []⟩, true⟩).1.filter =
      "err" := by
  constructor
  · decide
  · decide

/-- C9 (amended): `handleContainerChange` keeps the local filter text
unchanged, clears the transport buffer and the retained list, selects
the new container, and — when a container is chosen and the socket is
connected — sends the `start` request for the new container carrying
the current (previous) filter text. -/
theorem switch_keeps_filter (cid : String) (s : AppState) :
    (handleContainerChange cid s).1.filter = s.filter ∧
    (handleContainerChange cid s).1.selectedContainer = cid ∧
    (handleContainerChange cid s).1.logs = [] ∧
    (handleContainerChange cid s).1.buffer = clearBuffer s.buffer ∧
    (cid ≠ "" → s.isConnected = true →
      (handleContainerChange cid s).2 = [⟨cid, s.filter, 100⟩]) := by
  unfold handleContainerChange
  by_cases hc : cid ≠ "" ∧ s.isConnected = true
  · rw [if_pos hc]
    exact ⟨rfl, rfl, rfl, rfl, fun _ _ => rfl⟩
  · rw [if_neg hc]
    exact ⟨rfl, rfl, rfl, rfl, fun h1 h2 => absurd ⟨h1, h2⟩ hc⟩

/-- Concrete instantiation of `switch_keeps_filter`. -/
theorem switch_keeps_filter_witness :
    (handleContainerChange "c2" ⟨"c1", "abc", [], ⟨[], true, []⟩, true⟩).1.filter =
      "abc" ∧
    (handleContainerChange "c2" ⟨"c1", "abc", [], ⟨[], true, []⟩, true⟩).2 =
      [⟨"c2", "abc", 100⟩] := by
  have h := switch_keeps_filter "c2" ⟨"c1", "abc", [], ⟨[], true, []⟩, true⟩
  exact ⟨h.1, h.2.2.2.2 (by decide) rfl⟩

/-! ## Server-side filter & dispatch -/

/-- C2 (documented fix absent): the `log` messages `sendFilteredLogs`
emits carry no `containerId` — with and without an active keyword — and
consequently the client-side batch filter rejects every one of them for
every selected container. -/
theorem log_emitted_without_origin_tag :
    sendFilteredLogs "hello world\n" none =
      some ⟨"log", some "hello world\n", none, none⟩ ∧
    sendFilteredLogs "hello world\n" (some "hello") =
      some ⟨"log", some "hello world", none, none⟩ ∧
    ∀ sel : String, msgKeep sel ⟨"log", some "hello world\n", none, none⟩ = false := by
  refine ⟨by decide, by decide, ?_⟩
  intro sel
  simp [msgKeep]

/-- C8 counterexample: with no active keyword an empty chunk is emitted
as an empty `log` message, and with an empty keyword a whitespace-only
chunk is emitted although its content trims to nothing — the
empty/whitespace suppression does not apply when filtering is
skipped. -/
theorem empty_log_message_emitted :
    sendFilteredLogs "" none = some ⟨"log", some "", none, none⟩ ∧
    sendFilteredLogs "\n" (some "") = some ⟨"log", some "\n", none, none⟩ ∧
    jsTrim "\n" = "" := by
  refine ⟨by decide, by decide, by decide⟩

/-- C8 (amended): with a non-empty keyword, dispatch retains exactly the
lines whose lowercased text contains the lowercased keyword, rejoined by
newline, and suppresses the message when that result trims to nothing;
with an absent or empty keyword, filtering and suppression are both
skipped and the chunk is emitted verbatim. -/
theorem dispatch_filter_spec (chunk f : String) :
    (f ≠ "" → jsTrim (filteredLines chunk f) = "" →
        sendFilteredLogs chunk (some f) = none) ∧
    (f ≠ "" → jsTrim (filteredLines chunk f) ≠ "" →
        sendFilteredLogs chunk (some f) =
          some ⟨"log", some (filteredLines chunk f), none, none⟩) ∧
    sendFilteredLogs chunk none = some ⟨"log", some chunk, none, none⟩ ∧
    sendFilteredLogs chunk (some "") = some ⟨"log", some chunk, none, none⟩ := by
  refine ⟨?_, ?_, rfl, ?_⟩
  · intro hf ht
    simp only [sendFilteredLogs]
    rw [if_neg hf, if_pos ht]
  · intro hf ht
    simp only [sendFilteredLogs]
    rw [if_neg hf, if_neg ht]
  · simp [sendFilteredLogs]

/-- Concrete instantiation of `dispatch_filter_spec`: the keyword
"error" keeps the matching line (case-insensitively) and suppresses a
chunk with no matching line. -/
theorem dispatch_filter_spec_witness :
    sendFilteredLogs "ERROR a\ninfo b" (some "error") =
      some ⟨"log", some "ERROR a", none, none⟩ ∧
    sendFilteredLogs "info b" (some "error") = none := by
  have h1 := (dispatch_filter_spec "ERROR a\ninfo b" "error").2.1
    (by decide) (by decide)
  have h2 := (dispatch_filter_spec "info b" "error").1 (by decide) (by decide)
  constructor
  · rw [h1, show filteredLines "ERROR a\ninfo b" "error" = "ERROR a" from by decide]
  · exact h2

/-- `hasSub`, `splitLines`, `jsToLower` and `jsTrim` on sample values,
checking the JavaScript semantics they model. -/
theorem js_string_ops_samples :
    strContains "hello world" "lo w" = true ∧
    strContains "hello" "" = true ∧
    strContains "hello" "world" = false ∧
    jsSplit "a\nb\n" = ["a", "b", ""] ∧
    jsSplit "" = [""] ∧
    jsToLower "ErRoR" = "error" ∧
    jsTrim "  a b \n" = "a b" := by
  decide
